import Mathlib

/-
Shallow embedding of the message-dispatch and response-rendering controller of
the SelfGPT chat client (src/components/chat-app.tsx), together with the
auxiliary pure helpers `splitForTyping` and `pickFastModel` defined there.

Modelling conventions:
* JavaScript strings are modelled as Lean `String` / `List Char`; indices are
  code points (all inputs of interest are ASCII, where JS UTF-16 indices agree).
* JS numbers arising in model scores are modelled as exact decimals (`Dec`,
  with its rational value `Dec.toRat`); `NaN` is modelled as `none : Option Dec`
  where it can arise.
* The cooperative single-threaded event loop is modelled by an explicit event
  machine (`step`): each event runs one synchronous block to its next awaiting
  point; an abort of a pending fetch resumes its owner at the following
  microtask checkpoint, i.e. directly after the aborting block, before any
  other queued event.
-/

namespace SelfGPT

/-! ### Constants from src/components/chat-app.tsx -/

def REQUEST_TIMEOUT_MS : Nat := 30000

def TYPE_CHUNK_SIZE : Nat := 10

def TYPE_INTERVAL_MS : Nat := 28

/-! ### Generic JavaScript string helpers -/

/-- JS `a || b` on strings: the empty string is falsy. -/
def jsOr (a b : String) : String := if a = "" then b else a

/-- First index at which `pat` occurs as a contiguous sublist of `l`
(JS `String.prototype.indexOf`, `none` for `-1`). -/
def firstIdx (pat : List Char) : List Char → Option Nat
  | [] => if pat.isPrefixOf ([] : List Char) then some 0 else none
  | c :: rest =>
    if pat.isPrefixOf (c :: rest) then some 0
    else (firstIdx pat rest).map (· + 1)

/-- JS `hay.includes(needle)` / `indexOf(...) !== -1`. -/
def strContains (hay needle : String) : Bool := (firstIdx needle.data hay.data).isSome

/-- Whitespace characters removed by JS `String.prototype.trimEnd`. -/
def jsWhitespace (c : Char) : Bool :=
  c = ' ' || c = '\t' || c = '\n' || c = '\r' ||
  c = Char.ofNat 11 || c = Char.ofNat 12 || c = Char.ofNat 160 ||
  c = Char.ofNat 0x1680 ||
  (0x2000 ≤ c.toNat && c.toNat ≤ 0x200A) ||
  c = Char.ofNat 0x2028 || c = Char.ofNat 0x2029 ||
  c = Char.ofNat 0x202F || c = Char.ofNat 0x205F ||
  c = Char.ofNat 0x3000 || c = Char.ofNat 0xFEFF

/-- JS `String.prototype.trimEnd` on a character list. -/
def jsTrimEnd (l : List Char) : List Char := (l.reverse.dropWhile jsWhitespace).reverse

/-- JS `String.prototype.toLowerCase`, character-wise (`Char.toLower` lowers
exactly the ASCII letters, which is all the case folding the scoring needs). -/
def strToLower (s : String) : String := String.mk (s.data.map Char.toLower)

/-! ### Fence-aware splitter (`splitForTyping`, chat-app.tsx lines 40-49) -/

/-- The triple-backtick fence marker searched for by `splitForTyping`. -/
def fenceMarker : List Char := "```".data

/-- Source `splitForTyping`: split at the first triple-backtick; the part before
it is trimmed of trailing whitespace (`typed`), the rest is kept verbatim
(`suffix`). -/
def splitForTypingL (text : List Char) : List Char × List Char :=
  match firstIdx fenceMarker text with
  | none => (text, [])
  | some i => (jsTrimEnd (text.take i), text.drop i)

/-- String-level wrapper of `splitForTypingL`. -/
def splitForTyping (s : String) : String × String :=
  let p := splitForTypingL s.data
  (String.mk p.1, String.mk p.2)

/-! ### Fallback model selector (`pickFastModel`, chat-app.tsx lines 51-67) -/

/-- Numeric value of a decimal digit list, most significant first. -/
def decNatVal (ds : List Char) : Nat := ds.foldl (fun a c => a * 10 + (c.toNat - 48)) 0

/-- Exact decimal number `num / 10 ^ exp`, the (non-normalising) representation
we use for the JS numbers occurring in model scores.  All JS numbers reached by
the scoring code are decimals of small magnitude, on which double-precision
arithmetic and comparison agree with exact decimal arithmetic. -/
structure Dec where
  num : Int
  exp : Nat
  deriving DecidableEq, Repr

/-- Rational value of a `Dec`. -/
def Dec.toRat (d : Dec) : ℚ := (d.num : ℚ) / (10 : ℚ) ^ d.exp

/-- Exact decimal `a + b`. -/
def Dec.add (a b : Dec) : Dec :=
  ⟨a.num * (10 : Int) ^ b.exp + b.num * (10 : Int) ^ a.exp, a.exp + b.exp⟩

/-- Exact decimal `a - b`. -/
def Dec.sub (a b : Dec) : Dec :=
  ⟨a.num * (10 : Int) ^ b.exp - b.num * (10 : Int) ^ a.exp, a.exp + b.exp⟩

/-- Exact decimal comparison `a ≤ b`, by cross multiplication. -/
def Dec.le (a b : Dec) : Bool :=
  a.num * (10 : Int) ^ b.exp ≤ b.num * (10 : Int) ^ a.exp

/-- A `Dec` from an integer. -/
def Dec.ofInt (n : Int) : Dec := ⟨n, 0⟩

/-- JS `Number(t)` restricted to the token shapes that can reach it here:
`some d` for tokens of the shape `digits` or `digits.digits` (exact decimal
value), `none` (NaN) for anything else — in particular for every token starting
with a backslash. -/
def jsNumberLit (t : List Char) : Option Dec :=
  let intPart := t.takeWhile Char.isDigit
  if intPart = [] then none
  else
    match t.drop intPart.length with
    | [] => some (Dec.ofInt (decNatVal intPart))
    | '.' :: frac =>
      if frac ≠ [] ∧ frac.all Char.isDigit then
        some ⟨(decNatVal intPart : Int) * (10 : Int) ^ frac.length + (decNatVal frac : Int),
              frac.length⟩
      else none
    | _ => none

/-- Whether `c` is a JS regex line terminator (not matched by `.`). -/
def lineTerminator (c : Char) : Bool :=
  c = '\n' || c = '\r' || c = Char.ofNat 0x2028 || c = Char.ofNat 0x2029

/-- One match attempt, at the head of `l`, of the regex literal written in the
source as `/\\d+(?:\\.\\d+)?/`.  Because the backslashes are doubled inside a
regex literal, the pattern matches: a literal backslash, one or more letters
`d`, then optionally a backslash, any non-line-terminator character, a
backslash and one or more letters `d`.  It does NOT match decimal digits.
Returns the matched characters and the remaining input. -/
def buggyMatchHead : List Char → Option (List Char × List Char)
  | '\\' :: rest =>
    let ds := rest.takeWhile (· = 'd')
    if ds = [] then none
    else
      let rest1 := rest.drop ds.length
      match rest1 with
      | '\\' :: c :: '\\' :: rest2 =>
        let ds2 := rest2.takeWhile (· = 'd')
        if ds2 ≠ [] ∧ ¬ lineTerminator c then
          some (('\\' :: ds) ++ ('\\' :: c :: '\\' :: ds2), rest2.drop ds2.length)
        else some ('\\' :: ds, rest1)
      | _ => some ('\\' :: ds, rest1)
  | _ => none

/-- Fuelled global scan for `buggyMatchHead` (JS `str.match(re_g)`); the fuel
`l.length` is enough since every step consumes at least one character. -/
def buggyScanF : Nat → List Char → List (List Char)
  | 0, _ => []
  | _ + 1, [] => []
  | fuel + 1, c :: rest =>
    match buggyMatchHead (c :: rest) with
    | some (m, rest2) => m :: buggyScanF fuel rest2
    | none => buggyScanF fuel rest

/-- All matches of the source regex `/\\d+(?:\\.\\d+)?/g` in `l`
(`[]` corresponds to the JS result `null`). -/
def buggyNumTokens (l : List Char) : List (List Char) := buggyScanF l.length l

/-- Sum of `Number(...)` over the matched tokens, starting from 0
(`nums.reduce((acc, num) => acc + Number(num), 0)`); `none` is NaN. -/
def sumJsNumbers (ts : List (List Char)) : Option Dec :=
  ts.foldl
    (fun acc t =>
      match acc, jsNumberLit t with
      | some a, some v => some (a.add v)
      | _, _ => none)
    (some (Dec.ofInt 0))

/-- Penalty part of the source score: subtract 1000 for "mini"/"lite"/"small",
800 for "instant"/"fast", substring-tested on the lower-cased identifier. -/
def penaltyScore (lower : String) : Int :=
  (if strContains lower "mini" || strContains lower "lite" || strContains lower "small"
    then (-1000 : Int) else 0)
  + (if strContains lower "instant" || strContains lower "fast" then (-800 : Int) else 0)

/-- Source score of one candidate (`pickFastModel`'s `map` body): penalties,
then minus the sum over the matches of the (buggy) number regex; `none` is NaN. -/
def scoreOf (name : String) : Option Dec :=
  let lower := strToLower name
  let base := Dec.ofInt (penaltyScore lower)
  match buggyNumTokens lower.data with
  | [] => some base
  | ts =>
    match sumJsNumbers ts with
    | some s => some (base.sub s)
    | none => none

/-- Comparator relation of `scored.sort((a, b) => a.score - b.score)`: `a` may
stay left of `b` when the comparator value is `≤ 0`; a NaN comparator value is
treated as 0 by `Array.prototype.sort`. -/
def scoreKeepsLeft : Option Dec → Option Dec → Bool
  | some a, some b => a.le b
  | _, _ => true

/-- The comparator as a decidable relation for `List.insertionSort`. -/
def scoredRel (a b : String × Option Dec) : Prop := scoreKeepsLeft a.2 b.2 = true

instance : DecidableRel scoredRel := fun a b =>
  instDecidableEqBool (scoreKeepsLeft a.2 b.2) true

/-- The scored-and-sorted candidate list (`list.map(...).sort(...)`), as a
stable ascending sort, which is what `Array.prototype.sort` guarantees. -/
def scoredList (list : List String) : List (String × Option Dec) :=
  List.insertionSort scoredRel (list.map fun name => (name, scoreOf name))

/-- The candidate names in ascending score order. -/
def sortedCandidates (list : List String) : List String := (scoredList list).map Prod.fst

/-- Source `pickFastModel`.  `current = none` models an absent argument; an
empty current string is likewise falsy in the `current && ...` guard. -/
def pickFastModel (list : List String) (current : Option String) : String :=
  match list with
  | [] => ""
  | x :: _ =>
    let scored := scoredList list
    let best := jsOr (((scored.head?).map Prod.fst).getD "") x
    let cur := current.getD ""
    if cur ≠ "" ∧ best = cur ∧ 1 < scored.length then
      ((scored[1]?).map Prod.fst).getD ""
    else best

/-! #### Selector scoring as the specification words it (for comparison)

The following two definitions follow the spec's description of the scoring
("subtract the sum of every numeric token found in the identifier, interpreted
as a non-negative decimal"), i.e. the intended digit-matching regex, to be
compared with the source's `scoreOf`. -/

/-- One match attempt of the intended pattern: digits with an optional single
fractional part. -/
def specMatchHead (l : List Char) : Option (List Char × List Char) :=
  let ds := l.takeWhile Char.isDigit
  if ds = [] then none
  else
    let rest1 := l.drop ds.length
    match rest1 with
    | '.' :: rest2 =>
      let ds2 := rest2.takeWhile Char.isDigit
      if ds2 ≠ [] then some (ds ++ '.' :: ds2, rest2.drop ds2.length)
      else some (ds, rest1)
    | _ => some (ds, rest1)

/-- Fuelled global scan for `specMatchHead`. -/
def specScanF : Nat → List Char → List (List Char)
  | 0, _ => []
  | _ + 1, [] => []
  | fuel + 1, c :: rest =>
    match specMatchHead (c :: rest) with
    | some (m, rest2) => m :: specScanF fuel rest2
    | none => specScanF fuel rest

/-- All numeric tokens of an identifier in the sense of the specification. -/
def specNumTokens (l : List Char) : List (List Char) := specScanF l.length l

/-- Candidate score as described by the specification (and by claim C3):
penalties minus the sum of every numeric decimal token. -/
def specScore (name : String) : Dec :=
  let lower := strToLower name
  (Dec.ofInt (penaltyScore lower)).sub
    (((specNumTokens lower.data).map (fun t => (jsNumberLit t).getD (Dec.ofInt 0))).foldl
      Dec.add (Dec.ofInt 0))

/-! ### Progressive reveal renderer (chat-app.tsx lines 186-206, 230-242)

The typing interval advances a cursor by `TYPE_CHUNK_SIZE` characters every
`TYPE_INTERVAL_MS` milliseconds.  We model the interval callback as a tick on
an explicit state; each tick also reports the list of message-content updates
it issued (`updateMessage` calls). -/

structure RevealState where
  cursor : Nat
  content : List Char
  active : Bool
  isTyping : Bool
  deriving DecidableEq, Repr

/-- State right after the assistant message is inserted with empty content,
`setIsTyping(true)` has run and the interval has been armed. -/
def revealStart : RevealState := { cursor := 0, content := [], active := true, isTyping := true }

/-- One firing of the typing interval callback.  When the interval has been
cleared (`active = false`) nothing fires.  Returns the successor state and the
content updates issued during the tick, in order. -/
def revealTick (typed suffix : List Char) (st : RevealState) : RevealState × List (List Char) :=
  if st.active then
    let cursor := min typed.length (st.cursor + TYPE_CHUNK_SIZE)
    let u1 := typed.take cursor
    if typed.length ≤ cursor then
      if suffix ≠ [] then
        ({ cursor := cursor, content := typed ++ suffix, active := false, isTyping := false },
          [u1, typed ++ suffix])
      else
        ({ cursor := cursor, content := u1, active := false, isTyping := false }, [u1])
    else
      ({ st with cursor := cursor, content := u1 }, [u1])
  else (st, [])

/-- Iterate `k` ticks from `st`, accumulating all issued content updates. -/
def revealIter (typed suffix : List Char) (st : RevealState) : Nat → RevealState × List (List Char)
  | 0 => (st, [])
  | k + 1 =>
    let p := revealIter typed suffix st k
    let q := revealTick typed suffix p.1
    (q.1, p.2 ++ q.2)

/-- The reveal run from the initial state. -/
def revealRun (typed suffix : List Char) (k : Nat) : RevealState × List (List Char) :=
  revealIter typed suffix revealStart k

/-- Number of interval firings until the interval clears itself: one tick per
`TYPE_CHUNK_SIZE` characters, and at least one tick even for an empty prefix
(the completion check runs inside the callback). -/
def revealTicks (typed : List Char) : Nat := max 1 ((typed.length + 9) / 10)

/-- Effect of `handleStop` on the reveal (chat-app.tsx lines 237-242): clear
the interval and the typing flag; the content is left untouched. -/
def revealStop (st : RevealState) : RevealState := { st with active := false, isTyping := false }

/-! ### Request lifecycle controller (`handleSendMessage`, chat-app.tsx 69-228)

The controller is modelled as an event machine over the chat client instance.
Dispatches are identified by a caller-chosen natural number; abort controllers
by consecutive naturals.  Events are: starting a dispatch (a user send),
resolution of a pending upload or chat fetch, firing of the armed 30-second
timeout, and a click on the stop button.  Each event runs the corresponding
synchronous code to its next suspension point; when a block aborts a pending
fetch, that fetch's rejection handler runs at the next microtask checkpoint,
i.e. immediately after the block and before any further event.

The progressive reveal that follows a delivered reply is modelled separately
by `revealRun`; the machine records the insertion of the empty assistant
message that starts it.  Chat-title renaming and loading-spinner state are
outside the claims and omitted. -/

/-- Fixed text of the error thrown when no distinct fallback model exists. -/
def timeoutMsg : String := "Request timed out."

/-- Fixed text of the assistant message inserted by the generic error handler. -/
def apologyMsg : String := "Sorry, something went wrong while generating a response."

/-- Settings and the model candidate list seen by `handleSendMessage`. -/
structure Config where
  models : List String
  provider : String
  model : String
  systemPrompt : String
  useWeb : Bool

/-- Body of the POST to /api/chat, as built in `sendChatRequest`: optional
fields are present only when the corresponding setting is truthy. -/
structure ChatPayload where
  message : String
  provider : Option String
  model : Option String
  system_prompt : Option String
  use_web : Bool
  deriving DecidableEq, Repr

/-- Payload construction from `sendChatRequest` (chat-app.tsx 124-131). -/
def mkPayload (cfg : Config) (text : String) (override : Option String) : ChatPayload :=
  { message := text
    provider := if cfg.provider ≠ "" then some cfg.provider else none
    model :=
      let m := jsOr (override.getD "") cfg.model
      if m = "" then none else some m
    system_prompt := if cfg.systemPrompt ≠ "" then some cfg.systemPrompt else none
    use_web := cfg.useWeb }

/-- Terminal state of one dispatch, labelled by its exit path. -/
inductive Outcome where
  /-- Normal completion; `reply` is the extracted reply text (possibly empty,
  in which case no assistant message was inserted). -/
  | delivered (reply : String)
  /-- Returned through `if (result.cancelled) return` after a user stop. -/
  | cancelledManual
  /-- Returned through the outer `AbortError` catch after being superseded. -/
  | cancelledSuperseded
  /-- The `throw new Error('Request timed out.')` branch: first request timed
  out and no distinct fallback model existed. -/
  | timedOutNoFallback
  /-- Any other caught error, carrying the thrown error message. -/
  | failed (msg : String)
  deriving DecidableEq, Repr

/-- Where a dispatch currently is. -/
inductive Phase where
  /-- Awaiting the attachment upload fetch (which carries NO abort signal). -/
  | uploadPending (text : String)
  /-- Awaiting the chat fetch guarded by abort controller `ctrl`; `override` is
  the fallback model of the retry attempt (`none` on the first attempt). -/
  | fetchPending (ctrl : Nat) (override : Option String) (text : String)
  /-- The dispatch has finished. -/
  | done (out : Outcome)
  deriving DecidableEq, Repr

/-- A mutation of the chat store requested by a dispatch. -/
inductive StoreMutation where
  | addUserMessage (content : String)
  | addAssistantMessage (content : String)
  deriving DecidableEq, Repr

/-- Result communicated out of `sendChatRequest` into the rest of
`handleSendMessage`. -/
inductive ReqResult where
  | cancelled
  | timedOut
  /-- Successful response; `message` is `data.message` when it is a string. -/
  | data (message : Option String)

/-- What resumes a pending chat fetch. -/
inductive FetchResult where
  /-- 2xx response whose JSON carried `message` (when a string). -/
  | ok (message : Option String)
  /-- Non-2xx response with the given body text. -/
  | httpErr (body : String)
  deriving DecidableEq, Repr

/-- State of the chat client instance plus the observable history. -/
structure MState where
  /-- `abortRef.current`: the abort controller retained by the instance. -/
  abortRef : Option Nat
  /-- `manualAbortRef.current`. -/
  manualAbort : Bool
  /-- Next fresh abort controller id. -/
  nextCtrl : Nat
  /-- Controllers whose abort signal has been tripped. -/
  aborted : List Nat
  /-- Which dispatch awaits on which controller. -/
  owners : Nat → Option Nat
  /-- Phase of each started dispatch. -/
  procs : Nat → Option Phase
  /-- Chat-store mutations issued so far, tagged by dispatch, in order. -/
  store : List (Nat × StoreMutation)
  /-- Chat requests issued so far (POST /api/chat), tagged by dispatch. -/
  requests : List (Nat × ChatPayload)

/-- The machine before any dispatch. -/
def initState : MState :=
  { abortRef := none, manualAbort := false, nextCtrl := 0, aborted := []
    owners := fun _ => none, procs := fun _ => none, store := [], requests := [] }

/-- Replace the phase of dispatch `d`. -/
def MState.setPhase (st : MState) (d : Nat) (ph : Phase) : MState :=
  { st with procs := fun x => if x = d then some ph else st.procs x }

/-- The `finally` block of `handleSendMessage` (chat-app.tsx 220-227) plus
recording the terminal outcome: clear the retained abort handle and the
manual-abort flag. -/
def finishDispatch (st : MState) (d : Nat) (o : Outcome) : MState :=
  { st.setPhase d (.done o) with abortRef := none, manualAbort := false }

/-- Start of `sendChatRequest` (chat-app.tsx 115-121): allocate a fresh
controller, retain it in `abortRef`, arm the timeout, issue the POST. -/
def startChatRequest (cfg : Config) (st : MState) (d : Nat) (text : String)
    (override : Option String) : MState :=
  let c := st.nextCtrl
  let st1 :=
    { st with
      nextCtrl := c + 1
      abortRef := some c
      owners := fun x => if x = c then some d else st.owners x
      requests := st.requests ++ [(d, mkPayload cfg text override)] }
  st1.setPhase d (.fetchPending c override text)

/-- Delivery tail of `handleSendMessage` (chat-app.tsx 178-206): extract the
reply (`message.getD ""` is the code's "treat a missing or non-string reply as
empty"); when non-empty insert the empty assistant message and start the
reveal. -/
def deliver (st : MState) (d : Nat) (message : Option String) : MState :=
  if message.getD "" ≠ "" then
    finishDispatch
      { st with store := st.store ++ [(d, StoreMutation.addAssistantMessage "")] } d
      (.delivered (message.getD ""))
  else finishDispatch st d (.delivered "")

/-- The outer catch for non-abort errors (chat-app.tsx 208-218): log, insert
the fixed apology assistant message, then run the `finally` block. -/
def genericCatch (st : MState) (d : Nat) (o : Outcome) : MState :=
  finishDispatch { st with store := st.store ++ [(d, StoreMutation.addAssistantMessage apologyMsg)] } d o

/-- Continuation of `handleSendMessage` once `sendChatRequest` has produced a
result (chat-app.tsx 161-176).  On the first attempt a timeout consults
`pickFastModel` and either retries once or throws `Request timed out.`; after
the retry the result is used as data unconditionally. -/
def afterRequest (cfg : Config) (st : MState) (d : Nat) (text : String) (isRetry : Bool)
    (r : ReqResult) : MState :=
  if isRetry then
    match r with
    | .data m => deliver st d m
    | _ => deliver st d none
  else
    match r with
    | .cancelled => finishDispatch st d .cancelledManual
    | .timedOut =>
      let fast := pickFastModel cfg.models (some cfg.model)
      if fast ≠ "" ∧ fast ≠ cfg.model then startChatRequest cfg st d text (some fast)
      else genericCatch st d .timedOutNoFallback
    | .data m => deliver st d m

/-- Why a pending chat fetch resumed. -/
inductive FetchCause where
  | fromNet (res : FetchResult)
  | fromTimer
  | fromAbort

/-- Resumption of the code awaiting the chat fetch (chat-app.tsx 133-158):
a 2xx response yields data; a non-2xx body is thrown into the outer catch; an
abort is classified by the armed-timeout flag and `manualAbortRef`; the
rethrown `AbortError` of a superseding abort is swallowed by the outer catch
with no store mutation. -/
def resumeFetch (cfg : Config) (st : MState) (d : Nat) (text : String)
    (override : Option String) (cause : FetchCause) : MState :=
  match cause with
  | .fromNet (.ok m) => afterRequest cfg st d text override.isSome (.data m)
  | .fromNet (.httpErr body) =>
    genericCatch st d (.failed (if body = "" then "Chat request failed" else body))
  | .fromTimer => afterRequest cfg st d text override.isSome .timedOut
  | .fromAbort =>
    if st.manualAbort then afterRequest cfg st d text override.isSome .cancelled
    else finishDispatch st d .cancelledSuperseded

/-- Run the rejection handler of the fetch awaiting on controller `c`, if one
is pending (the microtask following an abort). -/
def resumeAbortedOn (cfg : Config) (st : MState) : Option Nat → MState
  | none => st
  | some c =>
    match st.owners c with
    | none => st
    | some d =>
      match st.procs d with
      | some (.fetchPending c' ov text) =>
        if c' = c then resumeFetch cfg st d text ov .fromAbort else st
      | _ => st

/-- Arguments of one `handleSendMessage` invocation. -/
structure DispatchArgs where
  text : String
  hasFiles : Bool
  deriving DecidableEq, Repr

/-- Trip the abort signal of the retained controller, if any
(`if (abortRef.current) abortRef.current.abort()`). -/
def markAborted (st : MState) : Option Nat → MState
  | some c => { st with aborted := st.aborted ++ [c] }
  | none => st

/-- External events driving the machine. -/
inductive Event where
  /-- A user send: `handleSendMessage` runs with a fresh dispatch id. -/
  | start (d : Nat) (args : DispatchArgs)
  /-- The upload fetch of dispatch `d` settles (`ok = false` carries the
  non-success response body). -/
  | resolveUpload (d : Nat) (ok : Bool) (body : String)
  /-- The chat fetch of dispatch `d` settles from the network. -/
  | resolveFetch (d : Nat) (res : FetchResult)
  /-- The 30-second timeout of dispatch `d`'s pending chat fetch fires. -/
  | timerFire (d : Nat)
  /-- The user clicks stop (`handleStop`). -/
  | stopClick
  deriving DecidableEq, Repr

/-- The synchronous block of a fresh `handleSendMessage` call up to its first
await (chat-app.tsx 69-121): insert the user message, abort any previously
retained controller, clear the manual-abort flag, then either suspend on the
attachment upload (which carries no abort signal) or issue the chat request;
finally, the rejection handler of the aborted fetch, if one was pending, runs
at the following microtask checkpoint. -/
def startBlock (cfg : Config) (st : MState) (d : Nat) (args : DispatchArgs) : MState :=
  let prev := st.abortRef
  let stA :=
    markAborted { st with store := st.store ++ [(d, StoreMutation.addUserMessage args.text)] }
      prev
  let stB := { stA with manualAbort := false }
  let stC :=
    if args.hasFiles then stB.setPhase d (.uploadPending args.text)
    else startChatRequest cfg stB d args.text none
  resumeAbortedOn cfg stC prev

/-- One event of the machine.  Ill-timed events (e.g. a timer for a dispatch
that already resumed) are impossible in the JS event loop and are no-ops. -/
def step (cfg : Config) (st : MState) : Event → MState
  | .start d args =>
    match st.procs d with
    | some _ => st
    | none => startBlock cfg st d args
  | .resolveUpload d ok body =>
    match st.procs d with
    | some (.uploadPending text) =>
      if ok then startChatRequest cfg st d text none
      else genericCatch st d (.failed (if body = "" then "File upload failed" else body))
    | _ => st
  | .resolveFetch d res =>
    match st.procs d with
    | some (.fetchPending c ov text) =>
      if c ∈ st.aborted then st
      else resumeFetch cfg st d text ov (.fromNet res)
    | _ => st
  | .timerFire d =>
    match st.procs d with
    | some (.fetchPending c ov text) =>
      if c ∈ st.aborted then st
      else resumeFetch cfg { st with aborted := st.aborted ++ [c] } d text ov .fromTimer
    | _ => st
  | .stopClick =>
    match st.abortRef with
    | some c =>
      resumeAbortedOn cfg
        { st with manualAbort := true, aborted := st.aborted ++ [c], abortRef := none }
        (some c)
    | none => st

/-- Run the machine from `st` over a list of events. -/
def runFrom (cfg : Config) (st : MState) (evs : List Event) : MState :=
  evs.foldl (step cfg) st

/-- Run the machine from the initial state. -/
def run (cfg : Config) (evs : List Event) : MState := runFrom cfg initState evs

/-- Store mutations issued by dispatch `d`. -/
def storeFor (d : Nat) (st : MState) : List (Nat × StoreMutation) :=
  st.store.filter fun p => p.1 = d

/-- Chat requests issued by dispatch `d`. -/
def requestsFor (d : Nat) (st : MState) : List (Nat × ChatPayload) :=
  st.requests.filter fun p => p.1 = d

/-- Decidable check used for claim C9: once the second dispatch has inserted
its user message, no store mutation of the first dispatch may follow. -/
def noPriorMutationAfterSupersession (l : List (Nat × StoreMutation)) : Bool :=
  ((l.dropWhile fun p => p.1 ≠ 1).filter fun p => p.1 = 0).isEmpty

/-- The machine state after dispatch 0 has issued its first chat request on a
fresh instance (directly, or after a successful upload), with `ab` the
already-aborted controllers. -/
def pendingState (cfg : Config) (text : String) (ab : List Nat) : MState :=
  { abortRef := some 0, manualAbort := false, nextCtrl := 1, aborted := ab,
    owners := fun x => if x = 0 then some 0 else none,
    procs := fun x => if x = 0 then some (.fetchPending 0 none text) else none,
    store := [(0, .addUserMessage text)],
    requests := [(0, mkPayload cfg text none)] }

/-- Dispatch `d`'s observable history and phase agree in `st` and `st'`. -/
def untouched (d : Nat) (st st' : MState) : Prop :=
  st'.procs d = st.procs d ∧ storeFor d st' = storeFor d st ∧
    requestsFor d st' = requestsFor d st

/-! ### Notions used by the claim statements -/

/-- The pattern `pat` occurs in `l` starting at index `i`. -/
def matchesAt (pat l : List Char) (i : Nat) : Prop := pat.isPrefixOf (l.drop i) = true

instance (pat l : List Char) (i : Nat) : Decidable (matchesAt pat l i) :=
  instDecidableEqBool _ _

/-- Event schedule of the timeout-then-fallback scenario: one dispatch (with a
successful upload first when it carries files) whose chat request times out and
whose retry then times out as well. -/
def twoTimeoutSched (text : String) (hasFiles : Bool) : List Event :=
  [Event.start 0 ⟨text, hasFiles⟩]
    ++ (if hasFiles then [Event.resolveUpload 0 true ""] else [])
    ++ [Event.timerFire 0, Event.timerFire 0]

/-! ## Theorems -/

/-! ### The index search of `splitForTyping` -/

theorem isPrefixOf_nil_of_ne (pat : List Char) (h : pat ≠ []) :
    pat.isPrefixOf ([] : List Char) = false := by
  cases pat with
  | nil => exact absurd rfl h
  | cons c rest => rfl

theorem matchesAt_nil_false (pat : List Char) (h : pat ≠ []) (j : Nat) :
    ¬ matchesAt pat ([] : List Char) j := by
  simp [matchesAt, List.drop_nil, isPrefixOf_nil_of_ne pat h]

theorem matchesAt_cons_zero (pat : List Char) (c : Char) (rest : List Char) :
    matchesAt pat (c :: rest) 0 ↔ pat.isPrefixOf (c :: rest) = true := Iff.rfl

theorem matchesAt_cons_succ (pat : List Char) (c : Char) (rest : List Char) (j : Nat) :
    matchesAt pat (c :: rest) (j + 1) ↔ matchesAt pat rest j := Iff.rfl

theorem firstIdx_none_iff (pat l : List Char) (hpat : pat ≠ []) :
    firstIdx pat l = none ↔ ∀ j, ¬ matchesAt pat l j := by
  induction l with
  | nil =>
    constructor
    · intro _; exact matchesAt_nil_false pat hpat
    · intro _; simp [firstIdx, isPrefixOf_nil_of_ne pat hpat]
  | cons c rest ih =>
    cases hp : pat.isPrefixOf (c :: rest) with
    | true =>
      simp only [firstIdx, hp, if_true]
      constructor
      · intro hfalse; simp at hfalse
      · intro hall
        exact absurd ((matchesAt_cons_zero pat c rest).mpr hp) (hall 0)
    | false =>
      have hif : firstIdx pat (c :: rest) = (firstIdx pat rest).map (· + 1) := by
        simp [firstIdx, hp]
      rw [hif, Option.map_eq_none', ih]
      constructor
      · intro hall j
        match j with
        | 0 =>
          intro hc
          rw [matchesAt_cons_zero, hp] at hc
          exact absurd hc (by simp)
        | j + 1 => exact fun hc => hall j ((matchesAt_cons_succ pat c rest j).mp hc)
      · intro hall j
        exact fun hc => hall (j + 1) ((matchesAt_cons_succ pat c rest j).mpr hc)

theorem firstIdx_some_iff (pat l : List Char) (hpat : pat ≠ []) (i : Nat) :
    firstIdx pat l = some i ↔
      (matchesAt pat l i ∧ ∀ j, j < i → ¬ matchesAt pat l j) := by
  induction l generalizing i with
  | nil =>
    constructor
    · intro hsome
      rw [show firstIdx pat ([] : List Char) = none by
        simp [firstIdx, isPrefixOf_nil_of_ne pat hpat]] at hsome
      exact absurd hsome (by simp)
    · intro hc; exact absurd hc.1 (matchesAt_nil_false pat hpat i)
  | cons c rest ih =>
    cases hp : pat.isPrefixOf (c :: rest) with
    | true =>
      simp only [firstIdx, hp, if_true]
      constructor
      · intro hsome
        have hi : i = 0 := (Option.some.inj hsome).symm
        subst hi
        exact ⟨(matchesAt_cons_zero pat c rest).mpr hp,
          fun j hj => absurd hj (Nat.not_lt_zero j)⟩
      · intro hc
        match i, hc with
        | 0, _ => rfl
        | i + 1, ⟨_, hmin⟩ =>
          exact absurd ((matchesAt_cons_zero pat c rest).mpr hp) (hmin 0 (Nat.succ_pos i))
    | false =>
      simp only [firstIdx, hp, Bool.false_eq_true, if_false]
      constructor
      · intro hsome
        obtain ⟨i', hi', rfl⟩ := Option.map_eq_some'.mp hsome
        obtain ⟨hmatch, hmin⟩ := (ih i').mp hi'
        refine ⟨(matchesAt_cons_succ pat c rest i').mpr hmatch, fun j hj => ?_⟩
        match j with
        | 0 =>
          intro hc
          rw [matchesAt_cons_zero, hp] at hc
          exact absurd hc (by simp)
        | j + 1 =>
          exact fun hc => hmin j (by omega) ((matchesAt_cons_succ pat c rest j).mp hc)
      · intro hc
        match i, hc with
        | 0, ⟨hmatch, _⟩ =>
          rw [matchesAt_cons_zero, hp] at hmatch
          exact absurd hmatch (by simp)
        | i + 1, ⟨hmatch, hmin⟩ =>
          have : firstIdx pat rest = some i :=
            (ih i).mpr ⟨(matchesAt_cons_succ pat c rest i).mp hmatch,
              fun j hj =>
                fun hc => hmin (j + 1) (by omega) ((matchesAt_cons_succ pat c rest j).mpr hc)⟩
          simp [this]

/-- C5: for every response string, if it contains no triple-backtick marker the
splitter returns the entire string as the typeable prefix and an empty
preserved suffix; if the first triple-backtick occurs at index `i`, it returns
the substring before `i` with trailing whitespace trimmed as the prefix and the
substring from `i` to the end, unmodified, as the suffix. -/
theorem splitForTyping_first_fence (s : String) :
    ((∀ j, ¬ matchesAt fenceMarker s.data j) → splitForTyping s = (s, "")) ∧
    (∀ i, matchesAt fenceMarker s.data i →
      (∀ j, j < i → ¬ matchesAt fenceMarker s.data j) →
      splitForTyping s
        = (String.mk (jsTrimEnd (s.data.take i)), String.mk (s.data.drop i))) := by
  constructor
  · intro hnone
    have h : firstIdx fenceMarker s.data = none :=
      (firstIdx_none_iff fenceMarker s.data (by decide)).mpr hnone
    simp [splitForTyping, splitForTypingL, h]
  · intro i hmatch hmin
    have h : firstIdx fenceMarker s.data = some i :=
      (firstIdx_some_iff fenceMarker s.data (by decide) i).mpr ⟨hmatch, hmin⟩
    simp [splitForTyping, splitForTypingL, h]

/-- Witness for C5 at the concrete response of the claim: the fence is first
found at index 12 and the split is as the claim states. -/
theorem splitForTyping_first_fence_witness :
    splitForTyping "Here you go\n```py\nprint(1)\n```"
      = ("Here you go", "```py\nprint(1)\n```") := by
  have h := (splitForTyping_first_fence "Here you go\n```py\nprint(1)\n```").2 12
    (by decide) (by decide)
  rw [h]; decide

/-! ### The dead numeric scoring (claim C3) -/

/-- Sanity check that the exact-decimal comparator used in the sort agrees
with comparison of rational values. -/
theorem Dec.le_iff_toRat_le (a b : Dec) : a.le b = true ↔ a.toRat ≤ b.toRat := by
  unfold Dec.le Dec.toRat
  rw [div_le_div_iff₀ (by positivity) (by positivity)]
  rw [decide_eq_true_eq]
  constructor
  · intro h
    calc (a.num : ℚ) * (10 : ℚ) ^ b.exp = ((a.num * 10 ^ b.exp : Int) : ℚ) := by push_cast; ring
    _ ≤ ((b.num * 10 ^ a.exp : Int) : ℚ) := by exact_mod_cast h
    _ = (b.num : ℚ) * (10 : ℚ) ^ a.exp := by push_cast; ring
  · intro h
    have : ((a.num * 10 ^ b.exp : Int) : ℚ) ≤ ((b.num * 10 ^ a.exp : Int) : ℚ) := by
      calc ((a.num * 10 ^ b.exp : Int) : ℚ) = (a.num : ℚ) * (10 : ℚ) ^ b.exp := by push_cast; ring
      _ ≤ (b.num : ℚ) * (10 : ℚ) ^ a.exp := h
      _ = ((b.num * 10 ^ a.exp : Int) : ℚ) := by push_cast; ring
    exact_mod_cast this

/-- C3 (code bug): the number-extraction regex of `pickFastModel` is written
with doubled backslashes inside a regex literal, so it matches literal
backslash-`d` sequences rather than digits, and numeric tokens never contribute
to a candidate's score.  Concretely, "llama-3.3-70b" yields no regex match and
scores 0, whereas the specified scoring extracts the tokens 3.3 and 70 and
yields -73.3; consequently the candidate list ["plain", "big-9000"] selects
"plain" although under the specified scoring "big-9000" scores strictly lower. -/
theorem pickFastModel_numeric_scoring_dead :
    buggyNumTokens (strToLower "llama-3.3-70b").data = [] ∧
    scoreOf "llama-3.3-70b" = some (Dec.ofInt 0) ∧
    specNumTokens (strToLower "llama-3.3-70b").data = ["3.3".data, "70".data] ∧
    (specScore "llama-3.3-70b").toRat = -(733 / 10 : ℚ) ∧
    pickFastModel ["plain", "big-9000"] none = "plain" ∧
    (specScore "big-9000").toRat < (specScore "plain").toRat := by
  refine ⟨by decide, by decide, by decide, ?_, by decide, ?_⟩
  · have h : specScore "llama-3.3-70b" = ⟨-733, 1⟩ := by decide
    rw [h]; norm_num [Dec.toRat]
  · have h1 : specScore "big-9000" = ⟨-9000, 0⟩ := by decide
    have h2 : specScore "plain" = ⟨0, 0⟩ := by decide
    rw [h1, h2]; norm_num [Dec.toRat]

/-! ### Selector edge cases and membership (claims C4 and C10) -/

theorem scoredList_length (l : List String) : (scoredList l).length = l.length := by
  simp [scoredList, List.length_insertionSort]

theorem mem_of_mem_scoredList (l : List String) (p : String × Option Dec)
    (hp : p ∈ scoredList l) : p.1 ∈ l := by
  have hmem : p ∈ l.map fun n => (n, scoreOf n) :=
    (List.mem_insertionSort scoredRel).mp hp
  obtain ⟨n, hn, hpn⟩ := List.mem_map.mp hmem
  rw [← hpn]
  exact hn

/-- C4: the selector returns the empty value for an empty candidate list; when
the best-scoring candidate equals the (truthy) currently-in-use identifier and
at least one other candidate exists it returns the second-best candidate
instead; and a list containing exactly one candidate equal to the current
identifier returns that same candidate. -/
theorem pickFastModel_edge_cases :
    (∀ current, pickFastModel [] current = "") ∧
    (∀ (l : List String) (cur : String), cur ≠ "" →
      (sortedCandidates l).head? = some cur → 1 < l.length →
      pickFastModel l (some cur) = ((sortedCandidates l)[1]?).getD "") ∧
    (∀ c, pickFastModel [c] (some c) = c) := by
  refine ⟨fun current => rfl, ?_, ?_⟩
  · intro l cur hcur hhead hlen
    cases l with
    | nil => simp at hlen
    | cons x xs =>
      have hbest : (((scoredList (x :: xs)).head?).map Prod.fst).getD "" = cur := by
        have hmap : (sortedCandidates (x :: xs)).head?
            = ((scoredList (x :: xs)).head?).map Prod.fst := by
          simp [sortedCandidates]
        rw [hmap] at hhead
        rw [hhead]
        rfl
      have hlen2 : 1 < (scoredList (x :: xs)).length := by
        rw [scoredList_length]; exact hlen
      simp only [pickFastModel]
      rw [hbest]
      rw [show jsOr cur x = cur from if_neg hcur]
      rw [if_pos ⟨hcur, rfl, hlen2⟩]
      simp [sortedCandidates]
  · intro c
    have hsing : scoredList [c] = [(c, scoreOf c)] := by
      simp [scoredList, List.insertionSort, List.orderedInsert]
    by_cases hc : c = ""
    · subst hc
      simp [pickFastModel, hsing, jsOr]
    · simp [pickFastModel, hsing, jsOr, hc]

/-- Witness for C4: with candidates ["a-mini", "b"] and current "a-mini" (the
best-scoring candidate), the selector returns the second-best candidate "b". -/
theorem pickFastModel_edge_cases_witness :
    pickFastModel ["a-mini", "b"] (some "a-mini") = "b" := by
  have h := pickFastModel_edge_cases.2.1 ["a-mini", "b"] "a-mini"
    (by decide) (by decide) (by decide)
  rw [h]; decide

/-- C10: for every non-empty candidate list and every optional current
identifier, the fallback selector returns an element of the candidate list;
it never fabricates an identifier absent from the input. -/
theorem pickFastModel_mem (l : List String) (current : Option String) (h : l ≠ []) :
    pickFastModel l current ∈ l := by
  cases l with
  | nil => exact absurd rfl h
  | cons x xs =>
    have hlen : 0 < (scoredList (x :: xs)).length := by
      rw [scoredList_length]; simp
    simp only [pickFastModel]
    split
    · next hcond =>
      obtain ⟨hcur, hbest, hlen2⟩ := hcond
      cases hsc : scoredList (x :: xs) with
      | nil => rw [hsc] at hlen; simp at hlen
      | cons p ps =>
        cases ps with
        | nil => rw [hsc] at hlen2; simp at hlen2
        | cons q qs =>
          have hq : q ∈ scoredList (x :: xs) := by
            rw [hsc]; exact List.mem_cons_of_mem p (List.mem_cons_self q qs)
          have hred : (Option.map Prod.fst ((p :: q :: qs : List (String × Option Dec)))[1]?).getD ""
              = q.1 := by simp
          rw [hred]
          exact mem_of_mem_scoredList (x :: xs) q hq
    · next =>
      cases hsc : scoredList (x :: xs) with
      | nil => rw [hsc] at hlen; simp at hlen
      | cons p ps =>
        have hp : p ∈ scoredList (x :: xs) := by rw [hsc]; exact List.mem_cons_self p ps
        have hhd : ((Option.map Prod.fst ((p :: ps : List (String × Option Dec))).head?).getD "")
            = p.1 := by simp
        rw [hhd]
        by_cases hps : p.1 = ""
        · rw [show jsOr p.1 x = x from if_pos hps]
          exact List.mem_cons_self x xs
        · rw [show jsOr p.1 x = p.1 from if_neg hps]
          exact mem_of_mem_scoredList (x :: xs) p hp

/-- Witness for C10 at a concrete list: the selected identifier is an element
of the candidate list. -/
theorem pickFastModel_mem_witness :
    pickFastModel ["solo-7b", "duo-13b"] (some "solo-7b") ∈ ["solo-7b", "duo-13b"] :=
  pickFastModel_mem ["solo-7b", "duo-13b"] (some "solo-7b") (by decide)

/-! ### Progressive reveal (claims C6 and C7) -/

theorem revealTicks_pos (typed : List Char) : 0 < revealTicks typed := by
  simp [revealTicks]

theorem lt_revealTicks_iff (typed : List Char) (k : Nat) :
    k + 1 < revealTicks typed ↔ 10 * (k + 1) < typed.length := by
  unfold revealTicks
  omega

theorem length_le_ten_mul_revealTicks (typed : List Char) :
    typed.length ≤ 10 * revealTicks typed := by
  unfold revealTicks
  omega

theorem take_min_length (l : List Char) (m : Nat) :
    l.take (min l.length m) = l.take m := by
  rw [Nat.min_comm, ← List.take_take, List.take_length]

theorem revealRun_active (typed suffix : List Char) (k : Nat) (hk : k < revealTicks typed) :
    revealRun typed suffix k
      = ({ cursor := 10 * k, content := typed.take (10 * k), active := true, isTyping := true },
         (List.range k).map fun i => typed.take (10 * (i + 1))) := by
  induction k with
  | zero => simp [revealRun, revealIter, revealStart]
  | succ k ih =>
    have hk' : k < revealTicks typed := Nat.lt_of_succ_lt hk
    have h10 : 10 * (k + 1) < typed.length := (lt_revealTicks_iff typed k).mp hk
    have ihr := ih hk'
    rw [revealRun] at ihr ⊢
    rw [revealIter, ihr]
    simp only [revealTick, TYPE_CHUNK_SIZE, if_true]
    have hmin : min typed.length (10 * k + 10) = 10 * k + 10 := by omega
    rw [hmin]
    rw [if_neg (by omega : ¬ typed.length ≤ 10 * k + 10)]
    rw [List.range_succ, List.map_append]
    have harith : 10 * (k + 1) = 10 * k + 10 := by ring
    simp [harith]

theorem revealRun_done (typed suffix : List Char) (k : Nat) (hk : revealTicks typed ≤ k) :
    revealRun typed suffix k
      = ({ cursor := typed.length,
           content := if suffix = [] then typed else typed ++ suffix,
           active := false, isTyping := false },
         ((List.range (revealTicks typed)).map fun i => typed.take (10 * (i + 1)))
           ++ (if suffix = [] then [] else [typed ++ suffix])) := by
  induction k with
  | zero => have := revealTicks_pos typed; omega
  | succ k ih =>
    rcases Nat.lt_or_ge k (revealTicks typed) with hlt | hge
    · have hn : revealTicks typed = k + 1 := by omega
      have hst := revealRun_active typed suffix k hlt
      rw [revealRun] at hst ⊢
      rw [revealIter, hst]
      have hlen : typed.length ≤ 10 * k + 10 := by
        have := length_le_ten_mul_revealTicks typed
        omega
      simp only [revealTick, TYPE_CHUNK_SIZE, if_true]
      have hmin : min typed.length (10 * k + 10) = typed.length := by omega
      rw [hmin]
      rw [if_pos (le_refl typed.length)]
      rw [List.take_length]
      rw [hn, List.range_succ, List.map_append]
      have htake : typed.take (10 * (k + 1)) = typed := List.take_of_length_le (by omega)
      by_cases hsuf : suffix = []
      · simp [hsuf, htake]
      · simp [hsuf, htake]
    · have ihr := ih hge
      rw [revealRun] at ihr ⊢
      rw [revealIter, ihr]
      simp [revealTick]

theorem revealIter_inactive (typed suffix : List Char) (st : RevealState)
    (hst : st.active = false) : ∀ m, revealIter typed suffix st m = (st, []) := by
  intro m
  induction m with
  | zero => rfl
  | succ m ih => rw [revealIter, ih]; simp [revealTick, hst]

/-- C6 (amended): the uncancelled reveal of a typeable prefix of length `L`
completes after exactly `max 1 ⌈L/10⌉` ticks of the cadence (one tick even for
an empty prefix, since the completion check runs inside the interval callback);
while running, the reveal update of tick `k` sets the content to
`prefix[0:min(L, 10k)]`; the update trace consists of exactly the successive
prefix reveals — the last of which is the full prefix — followed, when the
preserved suffix is non-empty, by exactly one final update `prefix ++ suffix`. -/
theorem reveal_trace_characterization (typed suffix : List Char) :
    (∀ k, k < revealTicks typed →
      (revealRun typed suffix k).1.active = true ∧
      (revealRun typed suffix k).1.content = typed.take (min typed.length (10 * k)) ∧
      (revealRun typed suffix k).2 = (List.range k).map fun i => typed.take (10 * (i + 1))) ∧
    (∀ k, revealTicks typed ≤ k →
      (revealRun typed suffix k).1.active = false ∧
      (revealRun typed suffix k).2
        = ((List.range (revealTicks typed)).map fun i => typed.take (10 * (i + 1)))
            ++ (if suffix = [] then [] else [typed ++ suffix])) ∧
    (suffix ≠ [] → ∀ k, revealTicks typed ≤ k →
      List.count (typed ++ suffix) (revealRun typed suffix k).2 = 1) ∧
    revealTicks typed = max 1 ((typed.length + 9) / 10) := by
  refine ⟨?_, ?_, ?_, rfl⟩
  · intro k hk
    rw [revealRun_active typed suffix k hk]
    refine ⟨rfl, ?_, rfl⟩
    rw [take_min_length]
  · intro k hk
    rw [revealRun_done typed suffix k hk]
    exact ⟨rfl, rfl⟩
  · intro hsuf k hk
    rw [revealRun_done typed suffix k hk]
    have hfull : typed ++ suffix ∉
        (List.range (revealTicks typed)).map fun i => typed.take (10 * (i + 1)) := by
      intro hmem
      obtain ⟨i, _, heq⟩ := List.mem_map.mp hmem
      have hlen1 : (typed.take (10 * (i + 1))).length ≤ typed.length := by
        simp [List.length_take]
      have hlen2 : (typed ++ suffix).length = typed.length + suffix.length := by
        simp
      have hpos : 0 < suffix.length := List.length_pos.mpr hsuf
      rw [heq] at hlen1
      omega
    simp only [hsuf, if_neg hsuf]
    rw [List.count_append]
    rw [List.count_eq_zero.mpr hfull]
    simp

/-- Witness for C6 at a 12-character prefix with a non-empty suffix: the
reveal is complete after 2 ticks, the trace being the two prefix reveals
followed by the single suffix-append update. -/
theorem reveal_trace_characterization_witness :
    (revealRun "abcdefghijkl".data "```c".data 2).1.active = false ∧
    (revealRun "abcdefghijkl".data "```c".data 2).2
      = ["abcdefghij".data, "abcdefghijkl".data, "abcdefghijkl```c".data] := by
  have h := (reveal_trace_characterization "abcdefghijkl".data "```c".data).2.1 2 (by decide)
  refine ⟨h.1, ?_⟩
  rw [h.2]
  decide

/-- C6 counterexample to the tick count as claimed: a reply that starts with a
code fence has an empty typeable prefix, `⌈0/10⌉ = 0`, yet after 0 ticks the
reveal has not completed (the interval is still armed and no update was
issued); the interval clears only on its first tick. -/
theorem reveal_empty_prefix_cex :
    (splitForTyping "```x").1 = "" ∧
    (((splitForTyping "```x").1.length + 9) / 10 = 0) ∧
    (revealRun (splitForTyping "```x").1.data (splitForTyping "```x").2.data 0).1.active
      = true ∧
    (revealRun (splitForTyping "```x").1.data (splitForTyping "```x").2.data 0).2 = [] ∧
    (revealRun (splitForTyping "```x").1.data (splitForTyping "```x").2.data 1).1.active
      = false := by decide

/-- C7: stopping mid-reveal after `K` ticks leaves the content at
`prefix[0:min(L, 10K)]`, clears the typing flag, and freezes the reveal: no
further tick ever issues an update, so the preserved suffix is never appended. -/
theorem handleStop_mid_reveal (typed suffix : List Char) (K : Nat)
    (hK : K < revealTicks typed) :
    (revealStop (revealRun typed suffix K).1).content
        = typed.take (min typed.length (10 * K)) ∧
    (revealStop (revealRun typed suffix K).1).isTyping = false ∧
    (revealStop (revealRun typed suffix K).1).active = false ∧
    ∀ m, revealIter typed suffix (revealStop (revealRun typed suffix K).1) m
        = (revealStop (revealRun typed suffix K).1, []) := by
  refine ⟨?_, rfl, rfl, revealIter_inactive typed suffix _ rfl⟩
  rw [revealRun_active typed suffix K hK]
  simp [revealStop, take_min_length]

/-- Witness for C7: stopping after 1 of the 2 ticks of a 12-character prefix
leaves exactly the first 10 characters and a cleared typing flag. -/
theorem handleStop_mid_reveal_witness :
    (revealStop (revealRun "abcdefghijkl".data "```c".data 1).1).content
        = "abcdefghijkl".data.take (min "abcdefghijkl".data.length (10 * 1)) ∧
    (revealStop (revealRun "abcdefghijkl".data "```c".data 1).1).isTyping = false :=
  ⟨(handleStop_mid_reveal "abcdefghijkl".data "```c".data 1 (by decide)).1,
   (handleStop_mid_reveal "abcdefghijkl".data "```c".data 1 (by decide)).2.1⟩


/-! ### Frame lemmas for the dispatch machine -/

theorem untouched_rfl (d : Nat) (st : MState) : untouched d st st := ⟨rfl, rfl, rfl⟩

theorem untouched_trans {d : Nat} {st1 st2 st3 : MState}
    (h1 : untouched d st1 st2) (h2 : untouched d st2 st3) : untouched d st1 st3 :=
  ⟨h2.1.trans h1.1, h2.2.1.trans h1.2.1, h2.2.2.trans h1.2.2⟩

theorem filter_tag_append (l : List (Nat × StoreMutation)) (e : Nat) (x : StoreMutation)
    (d : Nat) (h : e ≠ d) :
    (l ++ [(e, x)]).filter (fun p => p.1 = d) = l.filter fun p => p.1 = d := by
  rw [List.filter_append]
  simp [h]

theorem filter_tag_append_req (l : List (Nat × ChatPayload)) (e : Nat) (x : ChatPayload)
    (d : Nat) (h : e ≠ d) :
    (l ++ [(e, x)]).filter (fun p => p.1 = d) = l.filter fun p => p.1 = d := by
  rw [List.filter_append]
  simp [h]

theorem untouched_setPhase (st : MState) (e : Nat) (ph : Phase) (d : Nat) (h : e ≠ d) :
    untouched d st (st.setPhase e ph) := by
  have hne : ¬ (d = e) := fun hc => h hc.symm
  exact ⟨by simp [MState.setPhase, hne], rfl, rfl⟩

theorem untouched_finishDispatch (st : MState) (e : Nat) (o : Outcome) (d : Nat) (h : e ≠ d) :
    untouched d st (finishDispatch st e o) := by
  refine ⟨?_, rfl, rfl⟩
  show (st.setPhase e (.done o)).procs d = st.procs d
  exact (untouched_setPhase st e (.done o) d h).1

theorem untouched_startChatRequest (cfg : Config) (st : MState) (e : Nat) (text : String)
    (ov : Option String) (d : Nat) (h : e ≠ d) :
    untouched d st (startChatRequest cfg st e text ov) := by
  have hne : ¬ (d = e) := fun hc => h hc.symm
  refine ⟨?_, ?_, ?_⟩
  · simp [startChatRequest, MState.setPhase, hne]
  · simp [startChatRequest, MState.setPhase, storeFor]
  · simp only [startChatRequest, MState.setPhase, requestsFor]
    exact filter_tag_append_req st.requests e _ d h

theorem untouched_deliver (st : MState) (e : Nat) (m : Option String) (d : Nat) (h : e ≠ d) :
    untouched d st (deliver st e m) := by
  unfold deliver
  split
  · refine @untouched_trans d st
        { st with store := st.store ++ [(e, .addAssistantMessage "")] } _
      ⟨rfl, ?_, rfl⟩ (untouched_finishDispatch _ e _ d h)
    exact filter_tag_append st.store e _ d h
  · exact untouched_finishDispatch st e _ d h

theorem untouched_genericCatch (st : MState) (e : Nat) (o : Outcome) (d : Nat) (h : e ≠ d) :
    untouched d st (genericCatch st e o) := by
  unfold genericCatch
  refine @untouched_trans d st
      { st with store := st.store ++ [(e, .addAssistantMessage apologyMsg)] } _
    ⟨rfl, ?_, rfl⟩ (untouched_finishDispatch _ e o d h)
  exact filter_tag_append st.store e _ d h

theorem untouched_afterRequest (cfg : Config) (st : MState) (e : Nat) (text : String)
    (isRetry : Bool) (r : ReqResult) (d : Nat) (h : e ≠ d) :
    untouched d st (afterRequest cfg st e text isRetry r) := by
  cases r with
  | data m =>
    cases isRetry with
    | true => exact untouched_deliver st e m d h
    | false => exact untouched_deliver st e m d h
  | cancelled =>
    cases isRetry with
    | true => exact untouched_deliver st e none d h
    | false => exact untouched_finishDispatch st e _ d h
  | timedOut =>
    cases isRetry with
    | true => exact untouched_deliver st e none d h
    | false =>
      show untouched d st
        (if pickFastModel cfg.models (some cfg.model) ≠ ""
            ∧ pickFastModel cfg.models (some cfg.model) ≠ cfg.model then
          startChatRequest cfg st e text (some (pickFastModel cfg.models (some cfg.model)))
        else genericCatch st e .timedOutNoFallback)
      split
      · exact untouched_startChatRequest cfg st e text _ d h
      · exact untouched_genericCatch st e _ d h

theorem untouched_resumeFetch (cfg : Config) (st : MState) (e : Nat) (text : String)
    (ov : Option String) (cause : FetchCause) (d : Nat) (h : e ≠ d) :
    untouched d st (resumeFetch cfg st e text ov cause) := by
  cases cause with
  | fromNet res =>
    cases res with
    | ok m => exact untouched_afterRequest cfg st e text ov.isSome (.data m) d h
    | httpErr body => exact untouched_genericCatch st e _ d h
  | fromTimer => exact untouched_afterRequest cfg st e text ov.isSome .timedOut d h
  | fromAbort =>
    show untouched d st
      (if st.manualAbort then afterRequest cfg st e text ov.isSome .cancelled
       else finishDispatch st e .cancelledSuperseded)
    split
    · exact untouched_afterRequest cfg st e text ov.isSome .cancelled d h
    · exact untouched_finishDispatch st e _ d h

theorem untouched_resumeAbortedOn (cfg : Config) (st : MState) (oc : Option Nat) (d : Nat)
    (o : Outcome) (hd : st.procs d = some (.done o)) :
    untouched d st (resumeAbortedOn cfg st oc) := by
  cases oc with
  | none => exact untouched_rfl d st
  | some c =>
    simp only [resumeAbortedOn]
    split
    next => exact untouched_rfl d st
    next e howner =>
      split
      next c2 ov text hph =>
        split
        next hc2 =>
          refine untouched_resumeFetch cfg st e text ov .fromAbort d fun he => ?_
          rw [he, hd] at hph
          simp at hph
        next => exact untouched_rfl d st
      next => exact untouched_rfl d st


theorem untouched_addStore (st : MState) (e : Nat) (x : StoreMutation) (d : Nat) (h : e ≠ d) :
    untouched d st { st with store := st.store ++ [(e, x)] } :=
  ⟨rfl, filter_tag_append st.store e x d h, rfl⟩

theorem untouched_markAborted (st : MState) (oc : Option Nat) (d : Nat) :
    untouched d st (markAborted st oc) := by
  cases oc with
  | none => exact ⟨rfl, rfl, rfl⟩
  | some c => exact ⟨rfl, rfl, rfl⟩

theorem untouched_setManual (st : MState) (b : Bool) (d : Nat) :
    untouched d st { st with manualAbort := b } := ⟨rfl, rfl, rfl⟩

theorem startBlock_untouched (cfg : Config) (st : MState) (e : Nat) (args : DispatchArgs)
    (d : Nat) (hne : e ≠ d) (o : Outcome) (hd : st.procs d = some (.done o)) :
    untouched d st (startBlock cfg st e args) := by
  obtain ⟨atext, afiles⟩ := args
  have hB := untouched_trans (untouched_trans
      (untouched_addStore st e (StoreMutation.addUserMessage atext) d hne)
      (untouched_markAborted _ st.abortRef d)) (untouched_setManual _ false d)
  cases afiles with
  | true =>
    have hC := untouched_trans hB (untouched_setPhase _ e (.uploadPending atext) d hne)
    have hps := hC.1.trans hd
    exact untouched_trans hC (untouched_resumeAbortedOn cfg _ st.abortRef d o hps)
  | false =>
    have hC := untouched_trans hB (untouched_startChatRequest cfg _ e atext none d hne)
    have hps := hC.1.trans hd
    exact untouched_trans hC (untouched_resumeAbortedOn cfg _ st.abortRef d o hps)

theorem step_untouched_of_done (cfg : Config) (st : MState) (ev : Event) (d : Nat) (o : Outcome)
    (hd : st.procs d = some (.done o)) : untouched d st (step cfg st ev) := by
  cases ev with
  | start e args =>
    simp only [step]
    split
    next => exact untouched_rfl d st
    next hfresh =>
      have hne : e ≠ d := by
        intro he; rw [he, hd] at hfresh; exact absurd hfresh (by simp)
      exact startBlock_untouched cfg st e args d hne o hd
  | resolveUpload e ok body =>
    simp only [step]
    split
    next text hph =>
      have hne : e ≠ d := by
        intro he; rw [he, hd] at hph; exact absurd (Option.some.inj hph) (by simp)
      split
      · exact untouched_startChatRequest cfg st e text none d hne
      · exact untouched_genericCatch st e _ d hne
    next => exact untouched_rfl d st
  | resolveFetch e res =>
    simp only [step]
    split
    next c ov text hph =>
      have hne : e ≠ d := by
        intro he; rw [he, hd] at hph; exact absurd (Option.some.inj hph) (by simp)
      split
      · exact untouched_rfl d st
      · exact untouched_resumeFetch cfg st e text ov _ d hne
    next => exact untouched_rfl d st
  | timerFire e =>
    simp only [step]
    split
    next c ov text hph =>
      have hne : e ≠ d := by
        intro he; rw [he, hd] at hph; exact absurd (Option.some.inj hph) (by simp)
      split
      · exact untouched_rfl d st
      · exact untouched_trans (⟨rfl, rfl, rfl⟩ :
          untouched d st { st with aborted := st.aborted ++ [c] })
          (untouched_resumeFetch cfg _ e text ov .fromTimer d hne)
    next => exact untouched_rfl d st
  | stopClick =>
    simp only [step]
    split
    next c habort =>
      exact untouched_trans
        (⟨rfl, rfl, rfl⟩ : untouched d st
          { st with manualAbort := true, aborted := st.aborted ++ [c], abortRef := none })
        (untouched_resumeAbortedOn cfg _ _ d o hd)
    next => exact untouched_rfl d st

theorem runFrom_untouched_of_done (cfg : Config) (st : MState) (evs : List Event) (d : Nat)
    (o : Outcome) (hd : st.procs d = some (.done o)) : untouched d st (runFrom cfg st evs) := by
  induction evs generalizing st with
  | nil => exact untouched_rfl d st
  | cons ev evs ih =>
    have h1 := step_untouched_of_done cfg st ev d o hd
    have hd2 : (step cfg st ev).procs d = some (.done o) := h1.1.trans hd
    exact untouched_trans h1 (ih (step cfg st ev) hd2)


/-! ### Pointwise step lemmas at the symbolic branch points -/

theorem step_timerFire_pending (cfg : Config) (st : MState) (d c : Nat) (ov : Option String)
    (text : String) (hph : st.procs d = some (.fetchPending c ov text)) (hc : c ∉ st.aborted) :
    step cfg st (.timerFire d)
      = resumeFetch cfg { st with aborted := st.aborted ++ [c] } d text ov .fromTimer := by
  simp only [step, hph]
  rw [if_neg hc]

theorem resumeFetch_fromTimer_retry (cfg : Config) (st : MState) (d : Nat) (text : String)
    (hne : pickFastModel cfg.models (some cfg.model) ≠ "")
    (hdiff : pickFastModel cfg.models (some cfg.model) ≠ cfg.model) :
    resumeFetch cfg st d text none .fromTimer
      = startChatRequest cfg st d text (some (pickFastModel cfg.models (some cfg.model))) := by
  show (if pickFastModel cfg.models (some cfg.model) ≠ ""
        ∧ pickFastModel cfg.models (some cfg.model) ≠ cfg.model then
      startChatRequest cfg st d text (some (pickFastModel cfg.models (some cfg.model)))
    else genericCatch st d .timedOutNoFallback)
    = startChatRequest cfg st d text (some (pickFastModel cfg.models (some cfg.model)))
  rw [if_pos ⟨hne, hdiff⟩]

theorem requestsFor_runFrom_of_done (cfg : Config) (st : MState) (evs : List Event) (d : Nat)
    (o : Outcome) (hd : st.procs d = some (.done o)) :
    requestsFor d (runFrom cfg st evs) = requestsFor d st :=
  (runFrom_untouched_of_done cfg st evs d o hd).2.2

theorem storeFor_runFrom_of_done (cfg : Config) (st : MState) (evs : List Event) (d : Nat)
    (o : Outcome) (hd : st.procs d = some (.done o)) :
    storeFor d (runFrom cfg st evs) = storeFor d st :=
  (runFrom_untouched_of_done cfg st evs d o hd).2.1

/-! ### The dispatch lifecycle claims (C1, C2, C8) -/

/-- C2 (amended): when the first chat request times out and no distinct
fallback model exists, the dispatch ends on the timeout branch — the thrown
error carries the internal text "Request timed out." — but the user-visible
message inserted into the chat is the fixed apology text "Sorry, something
went wrong while generating a response.", because the thrown error is absorbed
by the generic error handler. -/
theorem timeout_without_fallback (cfg : Config) (text : String)
    (hfb : pickFastModel cfg.models (some cfg.model) = ""
      ∨ pickFastModel cfg.models (some cfg.model) = cfg.model) :
    (run cfg [.start 0 ⟨text, false⟩, .timerFire 0]).procs 0
        = some (.done .timedOutNoFallback) ∧
    storeFor 0 (run cfg [.start 0 ⟨text, false⟩, .timerFire 0])
        = [(0, .addUserMessage text), (0, .addAssistantMessage apologyMsg)] ∧
    timeoutMsg = "Request timed out." ∧
    apologyMsg = "Sorry, something went wrong while generating a response." := by
  have hcond : ¬ (pickFastModel cfg.models (some cfg.model) ≠ ""
      ∧ pickFastModel cfg.models (some cfg.model) ≠ cfg.model) := by
    rcases hfb with h | h <;> simp [h]
  have hrun : run cfg [.start 0 ⟨text, false⟩, .timerFire 0]
      = genericCatch (pendingState cfg text [0]) 0 .timedOutNoFallback := by
    show (if pickFastModel cfg.models (some cfg.model) ≠ ""
          ∧ pickFastModel cfg.models (some cfg.model) ≠ cfg.model then
        startChatRequest cfg (pendingState cfg text [0]) 0 text
          (some (pickFastModel cfg.models (some cfg.model)))
      else genericCatch (pendingState cfg text [0]) 0 .timedOutNoFallback)
      = genericCatch (pendingState cfg text [0]) 0 .timedOutNoFallback
    rw [if_neg hcond]
  rw [hrun]
  exact ⟨rfl, rfl, rfl, rfl⟩

/-- Witness for C2 at a concrete configuration with no candidate models: the
dispatch ends on the timeout branch and the inserted message is the apology. -/
theorem timeout_without_fallback_witness :
    (run ⟨[], "", "m", "", false⟩ [.start 0 ⟨"hi", false⟩, .timerFire 0]).procs 0
        = some (.done .timedOutNoFallback) ∧
    storeFor 0 (run ⟨[], "", "m", "", false⟩ [.start 0 ⟨"hi", false⟩, .timerFire 0])
        = [(0, .addUserMessage "hi"), (0, .addAssistantMessage apologyMsg)] :=
  ⟨(timeout_without_fallback ⟨[], "", "m", "", false⟩ "hi" (Or.inl (by decide))).1,
   (timeout_without_fallback ⟨[], "", "m", "", false⟩ "hi" (Or.inl (by decide))).2.1⟩

/-- C2 counterexample to the claim as stated: with no distinct fallback
available, the assistant message inserted for the user is the apology text and
no inserted message ever carries the text "Request timed out.". -/
theorem timeout_message_cex :
    storeFor 0 (run ⟨[], "", "m", "", false⟩ [.start 0 ⟨"hi", false⟩, .timerFire 0])
        = [(0, .addUserMessage "hi"), (0, .addAssistantMessage apologyMsg)] ∧
    ((run ⟨[], "", "m", "", false⟩ [.start 0 ⟨"hi", false⟩, .timerFire 0]).store.all
        fun p => p.2 ≠ .addAssistantMessage timeoutMsg) = true ∧
    apologyMsg ≠ timeoutMsg := by decide

/-- C1: when the first chat request times out and the fallback selector
returns a (non-empty) model distinct from the one in use, the controller
issues exactly one retry, with the fallback model substituted in the payload
of the second request, and even when that retry times out as well, no third
chat request is ever issued, whatever events follow.  The armed timeout is
`REQUEST_TIMEOUT_MS = 30000` milliseconds. -/
theorem timeout_single_fallback_retry (cfg : Config) (text : String) (hasFiles : Bool)
    (hne : pickFastModel cfg.models (some cfg.model) ≠ "")
    (hdiff : pickFastModel cfg.models (some cfg.model) ≠ cfg.model) :
    requestsFor 0 (run cfg (twoTimeoutSched text hasFiles))
        = [(0, mkPayload cfg text none),
           (0, mkPayload cfg text (some (pickFastModel cfg.models (some cfg.model))))] ∧
    (∀ evs, requestsFor 0 (runFrom cfg (run cfg (twoTimeoutSched text hasFiles)) evs)
        = [(0, mkPayload cfg text none),
           (0, mkPayload cfg text (some (pickFastModel cfg.models (some cfg.model))))]) ∧
    REQUEST_TIMEOUT_MS = 30000 := by
  cases hasFiles with
  | false =>
    have h2 : run cfg (twoTimeoutSched text false)
        = step cfg (step cfg (step cfg initState (.start 0 ⟨text, false⟩)) (.timerFire 0))
            (.timerFire 0) := rfl
    rw [h2,
      step_timerFire_pending cfg (step cfg initState (.start 0 ⟨text, false⟩)) 0 0 none text
        rfl (List.not_mem_nil 0),
      resumeFetch_fromTimer_retry cfg _ 0 text hne hdiff]
    refine ⟨rfl, ?_, rfl⟩
    intro evs
    rw [requestsFor_runFrom_of_done cfg _ evs 0 (.delivered "") rfl]
    rfl
  | true =>
    have h2 : run cfg (twoTimeoutSched text true)
        = step cfg (step cfg
            (step cfg (step cfg initState (.start 0 ⟨text, true⟩)) (.resolveUpload 0 true ""))
            (.timerFire 0)) (.timerFire 0) := rfl
    rw [h2,
      step_timerFire_pending cfg
        (step cfg (step cfg initState (.start 0 ⟨text, true⟩)) (.resolveUpload 0 true "")) 0 0
        none text rfl (List.not_mem_nil 0),
      resumeFetch_fromTimer_retry cfg _ 0 text hne hdiff]
    refine ⟨rfl, ?_, rfl⟩
    intro evs
    rw [requestsFor_runFrom_of_done cfg _ evs 0 (.delivered "") rfl]
    rfl

/-- Witness for C1 at the spec's concrete scenario: candidates
["a-mini", "b-large"], current "b-large"; the two issued requests carry the
current model and then the fallback "a-mini". -/
theorem timeout_single_fallback_retry_witness :
    requestsFor 0 (run ⟨["a-mini", "b-large"], "", "b-large", "", false⟩
        (twoTimeoutSched "hi" false))
      = [(0, mkPayload ⟨["a-mini", "b-large"], "", "b-large", "", false⟩ "hi" none),
         (0, mkPayload ⟨["a-mini", "b-large"], "", "b-large", "", false⟩ "hi"
            (some (pickFastModel ["a-mini", "b-large"] (some "b-large"))))] :=
  (timeout_single_fallback_retry ⟨["a-mini", "b-large"], "", "b-large", "", false⟩ "hi" false
    (by decide) (by decide)).1

/-- C8 (amended): a dispatch with attachments whose upload returns a
non-success status issues zero chat requests — then and at any later point —
and ends with a Failed outcome carrying the upload's error text, or the fixed
text "File upload failed" when that text is empty. -/
theorem upload_failure_aborts (cfg : Config) (text body : String) :
    requestsFor 0 (run cfg [.start 0 ⟨text, true⟩, .resolveUpload 0 false body]) = [] ∧
    (∀ evs, requestsFor 0 (runFrom cfg
        (run cfg [.start 0 ⟨text, true⟩, .resolveUpload 0 false body]) evs) = []) ∧
    (run cfg [.start 0 ⟨text, true⟩, .resolveUpload 0 false body]).procs 0
        = some (.done (.failed (if body = "" then "File upload failed" else body))) ∧
    storeFor 0 (run cfg [.start 0 ⟨text, true⟩, .resolveUpload 0 false body])
        = [(0, .addUserMessage text), (0, .addAssistantMessage apologyMsg)] := by
  refine ⟨rfl, ?_, rfl, rfl⟩
  intro evs
  rw [requestsFor_runFrom_of_done cfg _ evs 0
    (.failed (if body = "" then "File upload failed" else body)) rfl]
  rfl

/-- C8 counterexample to the claim as stated: an upload failure with an empty
response body yields `Failed "File upload failed"`, not a Failed outcome
carrying the (empty) upload error text. -/
theorem upload_failure_empty_body_cex :
    (run ⟨[], "", "m", "", false⟩ [.start 0 ⟨"hi", true⟩, .resolveUpload 0 false ""]).procs 0
        = some (.done (.failed "File upload failed")) ∧
    ("File upload failed" : String) ≠ "" := ⟨rfl, by decide⟩


/-! ### Superseding dispatches (claim C9) -/

/-- C9 (amended): if, at the moment a new dispatch starts, the prior dispatch
is awaiting its chat fetch and its abort controller is the one currently
registered in the instance's abort handle, then the start of the new dispatch
aborts that controller, the prior dispatch resumes with an `AbortError` that
is swallowed silently (outcome `cancelledSuperseded`), and no callback of the
prior dispatch ever mutates the chat store or issues another chat request.
A prior dispatch whose controller is not registered — one still in its upload
phase, or one whose handle was cleared by an earlier dispatch's cleanup — is
not covered by this guarantee (see the counterexample). -/
theorem supersede_pending_chat_dispatch (cfg : Config) (st : MState) (d c : Nat)
    (ov : Option String) (text : String) (e : Nat) (args : DispatchArgs)
    (hph : st.procs d = some (.fetchPending c ov text))
    (href : st.abortRef = some c)
    (hown : st.owners c = some d)
    (hctrl : c < st.nextCtrl)
    (hfresh : st.procs e = none) :
    (step cfg st (.start e args)).procs d = some (.done .cancelledSuperseded) ∧
    c ∈ (step cfg st (.start e args)).aborted ∧
    storeFor d (step cfg st (.start e args)) = storeFor d st ∧
    requestsFor d (step cfg st (.start e args)) = requestsFor d st ∧
    (∀ evs, storeFor d (runFrom cfg (step cfg st (.start e args)) evs) = storeFor d st ∧
      requestsFor d (runFrom cfg (step cfg st (.start e args)) evs) = requestsFor d st) := by
  obtain ⟨atext, afiles⟩ := args
  have hde : d ≠ e := by
    intro h; rw [h, hfresh] at hph; exact absurd hph (by simp)
  have hed : e ≠ d := fun h => hde h.symm
  have hcne : c ≠ st.nextCtrl := Nat.ne_of_lt hctrl
  have hstep : step cfg st (.start e ⟨atext, afiles⟩) = startBlock cfg st e ⟨atext, afiles⟩ := by
    simp only [step, hfresh]
  cases afiles with
  | false =>
    have hblock : startBlock cfg st e ⟨atext, false⟩
        = finishDispatch
            (startChatRequest cfg
              { st with
                  store := st.store ++ [(e, StoreMutation.addUserMessage atext)],
                  aborted := st.aborted ++ [c],
                  manualAbort := false }
              e atext none)
            d .cancelledSuperseded := by
      simp only [startBlock, href, markAborted, resumeAbortedOn, startChatRequest,
        MState.setPhase, resumeFetch, hown, hph, hcne, hde, Bool.false_eq_true, if_false,
        eq_self_iff_true, if_true]
    have hfull := hstep.trans hblock
    have h1 : (step cfg st (.start e ⟨atext, false⟩)).procs d
        = some (.done .cancelledSuperseded) := by
      rw [hfull]; simp [finishDispatch, MState.setPhase]
    have h3 : storeFor d (step cfg st (.start e ⟨atext, false⟩)) = storeFor d st := by
      rw [hfull]
      simp only [finishDispatch, MState.setPhase, startChatRequest, storeFor]
      exact filter_tag_append st.store e _ d hed
    have h4 : requestsFor d (step cfg st (.start e ⟨atext, false⟩)) = requestsFor d st := by
      rw [hfull]
      simp only [finishDispatch, MState.setPhase, startChatRequest, requestsFor]
      exact filter_tag_append_req st.requests e _ d hed
    refine ⟨h1, ?_, h3, h4, ?_⟩
    · rw [hfull]
      simp [finishDispatch, MState.setPhase, startChatRequest]
    · intro evs
      constructor
      · rw [storeFor_runFrom_of_done cfg _ evs d .cancelledSuperseded h1]; exact h3
      · rw [requestsFor_runFrom_of_done cfg _ evs d .cancelledSuperseded h1]; exact h4
  | true =>
    have hblock : startBlock cfg st e ⟨atext, true⟩
        = finishDispatch
            (MState.setPhase
              { st with
                  store := st.store ++ [(e, StoreMutation.addUserMessage atext)],
                  aborted := st.aborted ++ [c],
                  manualAbort := false }
              e (.uploadPending atext))
            d .cancelledSuperseded := by
      simp only [startBlock, href, markAborted, resumeAbortedOn,
        MState.setPhase, resumeFetch, hown, hph, hcne, hde, Bool.false_eq_true, if_false,
        eq_self_iff_true, if_true]
    have hfull := hstep.trans hblock
    have h1 : (step cfg st (.start e ⟨atext, true⟩)).procs d
        = some (.done .cancelledSuperseded) := by
      rw [hfull]; simp [finishDispatch, MState.setPhase]
    have h3 : storeFor d (step cfg st (.start e ⟨atext, true⟩)) = storeFor d st := by
      rw [hfull]
      simp only [finishDispatch, MState.setPhase, storeFor]
      exact filter_tag_append st.store e _ d hed
    have h4 : requestsFor d (step cfg st (.start e ⟨atext, true⟩)) = requestsFor d st := by
      rw [hfull]
      simp only [finishDispatch, MState.setPhase, requestsFor]
    refine ⟨h1, ?_, h3, h4, ?_⟩
    · rw [hfull]
      simp [finishDispatch, MState.setPhase]
    · intro evs
      constructor
      · rw [storeFor_runFrom_of_done cfg _ evs d .cancelledSuperseded h1]; exact h3
      · rw [requestsFor_runFrom_of_done cfg _ evs d .cancelledSuperseded h1]; exact h4

/-- Witness for C9 (amended) at a reachable concrete state: dispatch 0 is
awaiting its chat fetch with its controller registered when dispatch 1 starts;
dispatch 0 ends `cancelledSuperseded` and its store history is unchanged. -/
theorem supersede_pending_chat_dispatch_witness :
    (step (⟨[], "", "m", "", false⟩ : Config)
        (run ⟨[], "", "m", "", false⟩ [.start 0 ⟨"a", false⟩]) (.start 1 ⟨"b", false⟩)).procs 0
      = some (.done .cancelledSuperseded) ∧
    storeFor 0 (step (⟨[], "", "m", "", false⟩ : Config)
        (run ⟨[], "", "m", "", false⟩ [.start 0 ⟨"a", false⟩]) (.start 1 ⟨"b", false⟩))
      = storeFor 0 (run ⟨[], "", "m", "", false⟩ [.start 0 ⟨"a", false⟩]) :=
  ⟨(supersede_pending_chat_dispatch ⟨[], "", "m", "", false⟩
      (run ⟨[], "", "m", "", false⟩ [.start 0 ⟨"a", false⟩]) 0 0 none "a" 1 ⟨"b", false⟩
      (by decide) (by decide) (by decide) (by decide) (by decide)).1,
   (supersede_pending_chat_dispatch ⟨[], "", "m", "", false⟩
      (run ⟨[], "", "m", "", false⟩ [.start 0 ⟨"a", false⟩]) 0 0 none "a" 1 ⟨"b", false⟩
      (by decide) (by decide) (by decide) (by decide) (by decide)).2.2.1⟩

/-- C9 counterexample to the claim as stated: dispatch 0, which carries
attachments, is still awaiting its upload (its fetch has no abort signal and
its controller does not exist yet) when dispatch 1 starts; dispatch 0 is never
aborted, issues its chat request after the supersession, and on resolution
inserts its assistant message — a store mutation of the prior dispatch after
the supersession. -/
theorem supersede_upload_phase_cex :
    noPriorMutationAfterSupersession
      (run ⟨[], "", "m", "", false⟩
        [.start 0 ⟨"hi", true⟩, .start 1 ⟨"yo", false⟩,
         .resolveUpload 0 true "", .resolveFetch 0 (.ok (some "hello"))]).store = false ∧
    (run ⟨[], "", "m", "", false⟩
        [.start 0 ⟨"hi", true⟩, .start 1 ⟨"yo", false⟩,
         .resolveUpload 0 true "", .resolveFetch 0 (.ok (some "hello"))]).store
      = [(0, .addUserMessage "hi"), (1, .addUserMessage "yo"),
         (0, .addAssistantMessage "")] ∧
    (run ⟨[], "", "m", "", false⟩
        [.start 0 ⟨"hi", true⟩, .start 1 ⟨"yo", false⟩,
         .resolveUpload 0 true "", .resolveFetch 0 (.ok (some "hello"))]).procs 0
      = some (.done (.delivered "hello")) ∧
    (run ⟨[], "", "m", "", false⟩
        [.start 0 ⟨"hi", true⟩, .start 1 ⟨"yo", false⟩]).aborted = [] := by decide

end SelfGPT
